import Mathlib

/-!
Verification development for the Pelles price-comparison system.

The repository ships the React/TypeScript frontend (src/frontend) and the
project README; the Python backend (matcher, comparator, override handler)
is described by the specification but its sources are not in the tree.
Frontend functions are embedded from their TypeScript sources; backend
components are modelled from the specification, as marked in each doc
comment.  Floating-point prices and scores are embedded as rationals;
JavaScript strings are embedded as `String` (and, where character-level
processing matters, as `List Char`).
-/

namespace Pelles

/-- Product record, from src/frontend/src/types/index.ts. -/
structure Product where
  id : String
  store_id : String
  name : String
  price : ℚ
  url : Option String
  image_url : Option String
  size_descriptor : Option String
  fetched_at : String
deriving Repr, DecidableEq

/-- Confidence level, from src/frontend/src/types/index.ts. -/
inductive ConfidenceLevel where
  | high
  | medium
  | low
deriving Repr, DecidableEq

/-- StoreMatch record, from src/frontend/src/types/index.ts. -/
structure StoreMatch where
  product : Option Product
  confidence : Option ConfidenceLevel
  alternatives : List Product
  warning : Option String
  match_score : ℚ
deriving Repr, DecidableEq

/-- ItemMatch record, from src/frontend/src/types/index.ts; the
`Record<string, StoreMatch>` map is embedded as an association list. -/
structure ItemMatch where
  query : String
  «matches» : List (String × StoreMatch)
deriving Repr, DecidableEq

/-- StoreSummary record, from src/frontend/src/types/index.ts. -/
structure StoreSummary where
  store_id : String
  store_name : String
  total_price : ℚ
  matched_count : Nat
  missing_count : Nat
  warned_count : Nat
  is_recommended : Bool
  as_of : Option String
deriving Repr, DecidableEq

/-- ComparisonResponse record, from src/frontend/src/types/index.ts. -/
structure ComparisonResponse where
  comparison_id : String
  stores : List StoreSummary
  items : List ItemMatch
deriving Repr, DecidableEq

/-- Tunable configuration, from the README configuration table. -/
structure Config where
  MATCH_HIGH_THRESHOLD : ℚ
  MATCH_MEDIUM_THRESHOLD : ℚ
  MIN_COVERAGE_FOR_RECOMMENDATION : ℚ
deriving Repr, DecidableEq

/-- Default configuration values from the README table
(0.85, 0.60, 0.70). -/
def defaultConfig : Config :=
  ⟨85/100, 60/100, 70/100⟩

namespace Backend

/-- Modelled from the spec: Matcher normalization of Hebrew final-letter
forms (§4.3 "normalize Hebrew final-letter forms"). -/
def normalizeHebrewFinal (c : Char) : Char :=
  if c = 'ך' then 'כ'
  else if c = 'ם' then 'מ'
  else if c = 'ן' then 'נ'
  else if c = 'ף' then 'פ'
  else if c = 'ץ' then 'צ'
  else c

/-- Modelled from the spec: punctuation stripped by the Matcher (§4.3
"strip punctuation"). -/
def isPunct (c : Char) : Bool :=
  c ∈ ['.', ',', ';', ':', '!', '?', '(', ')', '-', '/']

/-- Modelled from the spec: Hebrew diacritical marks (niqqud and
cantillation range) stripped by the Matcher (§4.3). -/
def isNiqqud (c : Char) : Bool :=
  1425 ≤ c.toNat && c.toNat ≤ 1479

/-- Modelled from the spec: Matcher text normalization (§4.3 "case-fold,
strip punctuation and diacritical marks, collapse whitespace, normalize
Hebrew final-letter forms"); punctuation becomes whitespace and
whitespace is collapsed by the later tokenization. -/
def normalizeText (s : String) : String :=
  String.mk ((s.data.filter (fun c => !(isNiqqud c))).map
    (fun c => normalizeHebrewFinal (if isPunct c then ' ' else c.toLower)))

/-- Modelled from the spec: tokenization of normalized text; filtering
empty tokens collapses runs of whitespace (§4.3). -/
def tokens (s : String) : List String :=
  ((normalizeText s).splitOn " ").filter (fun t => !(t = ""))

/-- Modelled from the spec: similarity score in [0,1] between the
normalized query and a candidate text (§4.3), as token-set overlap
divided by the larger token-set size. -/
def simScore (query cand : String) : ℚ :=
  let qs := (tokens query).dedup
  let cs := (tokens cand).dedup
  let inter := qs.filter (fun t => cs.contains t)
  let d := max qs.length cs.length
  if d = 0 then 0 else (inter.length : ℚ) / (d : ℚ)

/-- Modelled from the spec: confidence bucketing (§4.3
"score ≥ MATCH_HIGH_THRESHOLD → high; score ≥ MATCH_MEDIUM_THRESHOLD →
medium; otherwise low"). -/
def bucket (cfg : Config) (score : ℚ) : ConfidenceLevel :=
  if cfg.MATCH_HIGH_THRESHOLD ≤ score then ConfidenceLevel.high
  else if cfg.MATCH_MEDIUM_THRESHOLD ≤ score then ConfidenceLevel.medium
  else ConfidenceLevel.low

/-- Modelled from the spec: cap on the ranked alternatives list (§4.3
"capped at a fixed count"). -/
def MAX_ALTERNATIVES : Nat := 5

/-- Modelled from the spec: the "small score delta" within which two top
candidates are flagged as an ambiguous pick (§4.3). -/
def AMBIGUITY_DELTA : ℚ := 5/100

/-- Modelled from the spec: text a candidate is scored on, its combined
name and size text (§4.3). -/
def candText (p : Product) : String :=
  p.name ++ " " ++ p.size_descriptor.getD ""

/-- Insertion step for sorting scored candidates by descending score. -/
def insertDesc (x : Product × ℚ) : List (Product × ℚ) → List (Product × ℚ)
  | [] => [x]
  | y :: ys => if y.2 ≤ x.2 then x :: y :: ys else y :: insertDesc x ys

/-- Modelled from the spec: candidates ranked by descending score
(§4.3 "sorted by descending score"), as an insertion sort. -/
def sortDesc (l : List (Product × ℚ)) : List (Product × ℚ) :=
  l.foldr insertDesc []

/-- Modelled from the spec: the Matcher (§4.3).  Scores every candidate,
picks the maximum-score candidate; below the low-confidence floor
(MATCH_MEDIUM_THRESHOLD) it records no product but still ranks the
non-trivial candidates as alternatives; otherwise it derives the
confidence bucket from the score and attaches a warning when confidence
is below high or the two top candidates are within AMBIGUITY_DELTA.
(The price-outlier warning of §4.3 is not modelled; no claim depends on
which warning text is attached.) -/
def matchItem (cfg : Config) (query : String) (cands : List Product) : StoreMatch :=
  match sortDesc (cands.map (fun p => (p, simScore query (candText p)))) with
  | [] => ⟨none, none, [], none, 0⟩
  | best :: rest =>
    if best.2 < cfg.MATCH_MEDIUM_THRESHOLD then
      ⟨none, none,
        (((best :: rest).filter (fun a => decide (0 < a.2))).map (fun a => a.1)).take MAX_ALTERNATIVES,
        none, best.2⟩
    else
      let conf := bucket cfg best.2
      let ambiguous : Bool :=
        match rest with
        | [] => false
        | second :: _ => decide (best.2 - second.2 ≤ AMBIGUITY_DELTA)
      let warn : Option String :=
        if conf ≠ ConfidenceLevel.high then some "התאמה לא ודאית"
        else if ambiguous then some "נמצאו מספר התאמות דומות"
        else none
      ⟨some best.1, some conf,
        ((rest.filter (fun a => decide (0 < a.2))).map (fun a => a.1)).take MAX_ALTERNATIVES,
        warn, best.2⟩

/-- Modelled from the spec: the StoreMatch recorded for a given store on
one item (one per (item, store), §3). -/
def matchFor (it : ItemMatch) (sid : String) : Option StoreMatch :=
  (it.matches.find? (fun pr => pr.1 = sid)).map (fun pr => pr.2)

/-- Modelled from the spec: the product a store matched for one item, if
any. -/
def productFor (it : ItemMatch) (sid : String) : Option Product :=
  (matchFor it sid).bind (fun m => m.product)

/-- Modelled from the spec: Comparator matched count, the items whose
match for this store selected a product (§4.4). -/
def matchedCount (items : List ItemMatch) (sid : String) : Nat :=
  (items.filter (fun it => (productFor it sid).isSome)).length

/-- Modelled from the spec: Comparator missing count, the items whose
match for this store selected no product (§4.4). -/
def missingCount (items : List ItemMatch) (sid : String) : Nat :=
  (items.filter (fun it => !(productFor it sid).isSome)).length

/-- Modelled from the spec: Comparator total price, the sum of the
matched products' prices (§4.4). -/
def totalPrice (items : List ItemMatch) (sid : String) : ℚ :=
  ((items.filterMap (fun it => (productFor it sid).map (fun p => p.price))).map id).sum

/-- Modelled from the spec: Comparator warned count, matches with a
non-null warning or confidence below high (§4.4), counted among the
matched items. -/
def warnedCount (items : List ItemMatch) (sid : String) : Nat :=
  (items.filter (fun it =>
    match matchFor it sid with
    | some m => m.product.isSome && (m.warning.isSome || !(m.confidence = some ConfidenceLevel.high))
    | none => false)).length

/-- Modelled from the spec: recomputation of one store's summary from
the current item matches (§4.4, §4.5); `is_recommended` is assigned
afterwards by the recommendation pass. -/
def mkSummary (items : List ItemMatch) (sid sname : String) (as_of : Option String) : StoreSummary :=
  ⟨sid, sname, totalPrice items sid, matchedCount items sid,
    missingCount items sid, warnedCount items sid, false, as_of⟩

/-- Modelled from the spec: coverage, the fraction of list items the
store matched (§4.4 "coverage = matched_count / total_items"). -/
def coverage (nItems : Nat) (s : StoreSummary) : ℚ :=
  (s.matched_count : ℚ) / (nItems : ℚ)

/-- Modelled from the spec: a store is eligible for recommendation when
its coverage meets the floor (§4.4). -/
def eligible (cfg : Config) (nItems : Nat) (s : StoreSummary) : Bool :=
  decide (cfg.MIN_COVERAGE_FOR_RECOMMENDATION ≤ coverage nItems s)

/-- Modelled from the spec: does store `b` beat store `a` for the
recommendation (§4.4): strictly lower total price, then strictly higher
matched count, then strictly smaller store id. -/
def preferred (a b : StoreSummary) : Bool :=
  if b.total_price < a.total_price then true
  else if a.total_price < b.total_price then false
  else if a.matched_count < b.matched_count then true
  else if b.matched_count < a.matched_count then false
  else decide (b.store_id < a.store_id)

/-- Lexicographic key realizing the recommendation order: total price
ascending, then matched count descending, then store id ascending. -/
def storeKey (s : StoreSummary) : Lex (ℚ × Lex (ℤ × String)) :=
  toLex (s.total_price, toLex (-(s.matched_count : ℤ), s.store_id))

/-- Modelled from the spec: one selection step, keeping the incumbent
unless the next store beats it. -/
def pickStep (acc : Option StoreSummary) (s : StoreSummary) : Option StoreSummary :=
  match acc with
  | none => some s
  | some a => if preferred a s then some s else some a

/-- Modelled from the spec: fold selecting the best store under
`preferred`. -/
def pickBest (l : List StoreSummary) : Option StoreSummary :=
  l.foldl pickStep none

/-- Modelled from the spec: id of the recommended store — the best store
under the recommendation order among those meeting the coverage floor
(§4.4), or none when no store meets it. -/
def recommendedId (cfg : Config) (nItems : Nat) (stores : List StoreSummary) : Option String :=
  (pickBest (stores.filter (eligible cfg nItems))).map (fun s => s.store_id)

/-- Modelled from the spec: recommendation pass marking exactly the
selected store as recommended (§4.4). -/
def markRecommended (cfg : Config) (nItems : Nat) (stores : List StoreSummary) : List StoreSummary :=
  stores.map (fun s =>
    { s with is_recommended := decide (some s.store_id = recommendedId cfg nItems stores) })

/-- Store identity from the stores configuration (README: Shufersal and
Super Hefer Large; §6 listStores). -/
structure StoreInfo where
  store_id : String
  store_name : String
deriving Repr, DecidableEq

/-- Modelled from the spec: the compare pipeline (§2, §6).  The scrape
collaborator returns, per (store id, query), either a candidate list or
`none` for a scraper failure; a failure degrades to an empty candidate
list (§4.2) and never aborts the call.  The call fails only on an empty
item list (§7 InvalidInput). -/
def compare (cfg : Config) (scrape : String → String → Option (List Product))
    (stores : List StoreInfo) (items : List String) : Except String ComparisonResponse :=
  if items.isEmpty then Except.error "No items provided"
  else
    let itemMatches := items.map (fun q =>
      ItemMatch.mk q (stores.map (fun st =>
        (st.store_id, matchItem cfg q ((scrape st.store_id q).getD [])))))
    let summaries := stores.map (fun st => mkSummary itemMatches st.store_id st.store_name none)
    Except.ok ⟨"comparison", markRecommended cfg items.length summaries, itemMatches⟩

/-- Modelled from the spec: the Override Handler (§4.5).  Validates that
the item query belongs to the comparison, the store id belongs to it,
and the product id is the currently selected product or one of the
StoreMatch's alternatives; on success replaces the product, marks the
confidence as a manual override, clears the warning, recomputes the
store's summary and reruns the recommendation pass; otherwise fails with
a validation error. -/
def overrideHandler (cfg : Config) (c : ComparisonResponse)
    (item_query store_id product_id : String) : Except String ComparisonResponse :=
  match c.items.find? (fun it => it.query = item_query) with
  | none => Except.error "Item not found in comparison"
  | some item =>
    if !(c.stores.any (fun s => s.store_id = store_id)) then
      Except.error "Store not found in comparison"
    else
      match matchFor item store_id with
      | none => Except.error "No match entry for store"
      | some m =>
        match (if m.product.map (fun p => p.id) = some product_id then m.product
          else m.alternatives.find? (fun p => p.id = product_id)) with
        | none => Except.error "Product not found in alternatives"
        | some p =>
          let items2 := c.items.map (fun it =>
            if it.query = item_query then
              ItemMatch.mk it.query (it.matches.map (fun pr =>
                if pr.1 = store_id then
                  (pr.1, StoreMatch.mk (some p) (some ConfidenceLevel.high)
                    pr.2.alternatives none pr.2.match_score)
                else pr))
            else it)
          let stores2 := c.stores.map (fun s =>
            if s.store_id = store_id then mkSummary items2 s.store_id s.store_name s.as_of
            else s)
          Except.ok ⟨c.comparison_id, markRecommended cfg items2.length stores2, items2⟩

/-- Modelled from the spec: the Comparison Session Store (§4.6), holding
completed comparisons by id, embedded as an association list. -/
def findComparison (sess : List (String × ComparisonResponse)) (cid : String) :
    Option ComparisonResponse :=
  (sess.find? (fun pr => pr.1 = cid)).map (fun pr => pr.2)

/-- Modelled from the spec: the override boundary operation (§6, §4.5):
looks the comparison up by id, applies the Override Handler, and writes
the updated comparison back; the returned session reflects the state
after the call, which on any failure is the input session unchanged. -/
def runOverride (cfg : Config) (sess : List (String × ComparisonResponse))
    (cid item_query store_id product_id : String) :
    List (String × ComparisonResponse) × Except String ComparisonResponse :=
  match findComparison sess cid with
  | none => (sess, Except.error "Comparison not found")
  | some c =>
    match overrideHandler cfg c item_query store_id product_id with
    | Except.error e => (sess, Except.error e)
    | Except.ok c2 =>
      (sess.map (fun pr => if pr.1 = cid then (pr.1, c2) else pr), Except.ok c2)

/-- Modelled from the spec: the override preconditions of §4.5 — the
comparison exists, the item query is one of its items, the store id one
of its stores with a match entry, and the product id is the currently
selected product or one of the alternatives. -/
def overridePre (sess : List (String × ComparisonResponse))
    (cid item_query store_id product_id : String) : Prop :=
  ∃ c, findComparison sess cid = some c ∧
    ∃ item, c.items.find? (fun it => it.query = item_query) = some item ∧
      c.stores.any (fun s => s.store_id = store_id) = true ∧
      ∃ m, matchFor item store_id = some m ∧
        (m.product.map (fun p => p.id) = some product_id ∨
          ∃ p ∈ m.alternatives, p.id = product_id)

end Backend

namespace Client

/-- Shape of an HTTP response as the api client observes it: the `ok`
flag, the result of parsing the body as an error object (`Except.error
()` models an unparseable body, otherwise the optional truthy `detail`
field, `none` standing for an absent or empty detail), and the parsed
success payload. -/
structure HttpResponse where
  ok : Bool
  errorDetail : Except Unit (Option String)
  payload : ComparisonResponse

/-- Error message computed by the api client on a non-ok response, from
src/frontend/src/api/client.ts: `response.json().catch(() => ({ detail:
'Unknown error' }))` followed by `error.detail || fallback`. -/
def errorMessage (fallback : String) (errorDetail : Except Unit (Option String)) : String :=
  match errorDetail with
  | Except.error _ => "Unknown error"
  | Except.ok (some d) => d
  | Except.ok none => fallback

/-- Embedded from compareItems in src/frontend/src/api/client.ts: throws
with the computed error message when the response is not ok, otherwise
returns the parsed ComparisonResponse. -/
def compareItems (resp : HttpResponse) : Except String ComparisonResponse :=
  if resp.ok then Except.ok resp.payload
  else Except.error (errorMessage "Failed to compare items" resp.errorDetail)

/-- Embedded from overrideMatch in src/frontend/src/api/client.ts: same
shape as compareItems with its own fallback message. -/
def overrideMatch (resp : HttpResponse) : Except String ComparisonResponse :=
  if resp.ok then Except.ok resp.payload
  else Except.error (errorMessage "Failed to override selection" resp.errorDetail)

/-- State held by the useComparison hook
(hooks/useComparison.ts): the current comparison, the loading flag and
the last error message. -/
structure HookState where
  comparison : Option ComparisonResponse
  isLoading : Bool
  error : Option String
deriving Repr, DecidableEq

/-- Embedded from the override callback of useComparison
(hooks/useComparison.ts).  The server collaborator maps the request
arguments to the overrideMatch outcome.  Returns the new state together
with whether a network request was made: with no comparison held it
returns immediately; on a successful call it replaces the comparison; on
a failed call it only records the error message. -/
def override (st : HookState)
    (server : String → String → String → String → Except String ComparisonResponse)
    (itemQuery storeId productId : String) : HookState × Bool :=
  match st.comparison with
  | none => (st, false)
  | some c =>
    match server c.comparison_id itemQuery storeId productId with
    | Except.ok result => ({ st with comparison := some result }, true)
    | Except.error msg => ({ st with error := some msg }, true)

/-- Embedded from handleSubmit of ShoppingListInput
(components/ShoppingListInput.tsx): split the text on newlines, trim
each line, drop empty lines; JavaScript strings are embedded as
`List Char` so the split and trim are character-level functions. -/
def splitOnNewline : List Char → List (List Char)
  | [] => [[]]
  | c :: cs =>
    if c = '\n' then [] :: splitOnNewline cs
    else
      match splitOnNewline cs with
      | [] => [[c]]
      | l :: ls => (c :: l) :: ls

/-- Character-level embedding of JavaScript String.prototype.trim:
drop leading and trailing whitespace. -/
def trimLine (l : List Char) : List Char :=
  ((l.dropWhile Char.isWhitespace).reverse.dropWhile Char.isWhitespace).reverse

/-- Embedded from handleSubmit of ShoppingListInput: the items passed to
onCompare, the trimmed non-empty lines in their original order. -/
def submittedItems (text : List Char) : List (List Char) :=
  ((splitOnNewline text).map trimLine).filter (fun l => decide (0 < l.length))

/-- Embedded from handleSubmit of ShoppingListInput: onCompare is called
with the items exactly when the items list is non-empty; `some items`
models the call, `none` models no call (and hence no comparison being
initiated). -/
def handleSubmit (text : List Char) : Option (List (List Char)) :=
  if 0 < (submittedItems text).length then some (submittedItems text) else none

/-- Embedded from ComparisonResults
(components/ComparisonResults.tsx): `comparison.stores.some((s) =>
s.is_recommended)`. -/
def hasRecommendation (c : ComparisonResponse) : Bool :=
  c.stores.any (fun s => s.is_recommended)

/-- Embedded from ComparisonResults: the no-recommendation notice is
rendered exactly when `!hasRecommendation`. -/
def showsNoRecommendationNotice (c : ComparisonResponse) : Bool :=
  !(hasRecommendation c)

/-- Embedded from ProductSelector
(components/ProductSelector.tsx): the product ids the rendered
selection buttons can pass to onSelect — one button per element of the
alternatives list, each invoking `onSelect(product.id)`. -/
def selectableIds (alternatives : List Product) : List String :=
  alternatives.map (fun p => p.id)

/-- Embedded from ProductSelector: with an empty alternatives list the
component renders the close-only dialog branch, which contains no
selection button. -/
def rendersCloseOnlyDialog (alternatives : List Product) : Bool :=
  alternatives.length = 0

end Client

/-! Concrete fixtures, following the scenario of spec §8 (two items, store
A finds both at 6.0 and 5.0, store B finds only the first at 7.0 with a
cheaper alternative at 4.0). -/

/-- Store A's milk offer. -/
def prodA1 : Product := ⟨"a1", "a", "חלב", 6, none, none, none, "t0"⟩

/-- Store A's bread offer. -/
def prodA2 : Product := ⟨"a2", "a", "לחם", 5, none, none, none, "t0"⟩

/-- Store B's milk offer. -/
def prodB1 : Product := ⟨"b1", "b", "חלב", 7, none, none, none, "t0"⟩

/-- Store B's alternative milk offer. -/
def prodB2 : Product := ⟨"b2", "b", "חלב עמיד", 4, none, none, none, "t0"⟩

/-- Summary of store A in the scenario: both items matched, total 11. -/
def sumA : StoreSummary := ⟨"a", "Store A", 11, 2, 0, 0, false, none⟩

/-- Summary of store B in the scenario: one item matched, total 7. -/
def sumB : StoreSummary := ⟨"b", "Store B", 7, 1, 1, 0, false, none⟩

/-- Store A's match for the milk item. -/
def matchA1 : StoreMatch := ⟨some prodA1, some ConfidenceLevel.high, [], none, 9/10⟩

/-- Store A's match for the bread item. -/
def matchA2 : StoreMatch := ⟨some prodA2, some ConfidenceLevel.high, [], none, 9/10⟩

/-- Store B's match for the milk item, with one alternative. -/
def matchB1 : StoreMatch := ⟨some prodB1, some ConfidenceLevel.medium, [prodB2], none, 7/10⟩

/-- Store B's missing match for the bread item. -/
def matchB2 : StoreMatch := ⟨none, none, [], none, 1/10⟩

/-- The milk item with its per-store matches. -/
def itemMilk : ItemMatch := ⟨"חלב", [("a", matchA1), ("b", matchB1)]⟩

/-- The bread item with its per-store matches. -/
def itemBread : ItemMatch := ⟨"לחם", [("a", matchA2), ("b", matchB2)]⟩

/-- A completed comparison for the scenario. -/
def compEx : ComparisonResponse := ⟨"cmp1", [sumA, sumB], [itemMilk, itemBread]⟩

/-- Hook state holding no comparison. -/
def hookSt0 : Client.HookState := ⟨none, false, none⟩

/-- A server collaborator that always fails. -/
def srvErr : String → String → String → String → Except String ComparisonResponse :=
  fun _ _ _ _ => Except.error "boom"

/-! Claim theorems. -/

/-- C9: whenever the useComparison hook's override callback runs while
no comparison is held, it returns immediately: the state is unchanged
and no network request is performed. -/
theorem C9_override_noop_without_comparison (st : Client.HookState)
    (server : String → String → String → String → Except String ComparisonResponse)
    (itemQuery storeId productId : String) (h : st.comparison = none) :
    Client.override st server itemQuery storeId productId = (st, false) := by
  unfold Client.override
  rw [h]

/-- Witness for C9 at the empty hook state and an always-failing server. -/
theorem C9_witness :
    hookSt0.comparison = none ∧ Client.override hookSt0 srvErr "חלב" "a" "a1" = (hookSt0, false) :=
  ⟨rfl, C9_override_noop_without_comparison hookSt0 srvErr "חלב" "a" "a1" rfl⟩

/-- C10: ProductSelector can only emit product ids drawn from its
alternatives list: with an empty list it renders the close-only dialog
and there is no selection button at all, and every id a selection button
can pass to onSelect is the id of a product in the list. -/
theorem C10_selector_emits_only_alternative_ids (alternatives : List Product) :
    (alternatives = [] →
      Client.rendersCloseOnlyDialog alternatives = true ∧
      Client.selectableIds alternatives = []) ∧
    (alternatives ≠ [] → Client.rendersCloseOnlyDialog alternatives = false) ∧
    (∀ pid ∈ Client.selectableIds alternatives, ∃ p ∈ alternatives, p.id = pid) := by
  refine ⟨?_, ?_, ?_⟩
  · intro h
    subst h
    exact ⟨rfl, rfl⟩
  · intro h
    simpa [Client.rendersCloseOnlyDialog, List.length_eq_zero] using h
  · intro pid hpid
    simpa [Client.selectableIds, List.mem_map, eq_comm] using hpid

/-- Witness for C10 at the empty list and at a one-element list. -/
theorem C10_witness :
    Client.rendersCloseOnlyDialog [] = true ∧
    Client.selectableIds [] = [] ∧
    ∃ p ∈ [prodB2], p.id = "b2" :=
  ⟨((C10_selector_emits_only_alternative_ids []).1 rfl).1,
   ((C10_selector_emits_only_alternative_ids []).1 rfl).2,
   (C10_selector_emits_only_alternative_ids [prodB2]).2.2 "b2" (by simp [Client.selectableIds, prodB2])⟩

/-- C7: overrideMatch raises an error exactly when the HTTP response is
not ok, carrying the server detail when the error body parses to a
truthy detail, the default "Unknown error" object's detail when the body
is unparseable, and the fallback message when the parsed body has no
truthy detail; on an ok response it returns the parsed result. -/
theorem C7_overrideMatch_error_surfacing (resp : Client.HttpResponse) :
    (resp.ok = true → Client.overrideMatch resp = Except.ok resp.payload) ∧
    ((∃ m, Client.overrideMatch resp = Except.error m) ↔ resp.ok = false) ∧
    (∀ d, resp.ok = false → resp.errorDetail = Except.ok (some d) →
      Client.overrideMatch resp = Except.error d) ∧
    (resp.ok = false → resp.errorDetail = Except.error () →
      Client.overrideMatch resp = Except.error "Unknown error") ∧
    (resp.ok = false → resp.errorDetail = Except.ok none →
      Client.overrideMatch resp = Except.error "Failed to override selection") := by
  obtain ⟨ok, detail, payload⟩ := resp
  cases ok <;> rcases detail with u | (_ | d) <;>
    simp [Client.overrideMatch, Client.errorMessage]

/-- Witness for C7 at a response whose error body carries a detail. -/
theorem C7_witness :
    Client.overrideMatch ⟨false, Except.ok (some "Item not found"), compEx⟩ =
      Except.error "Item not found" :=
  (C7_overrideMatch_error_surfacing ⟨false, Except.ok (some "Item not found"), compEx⟩).2.2.1
    "Item not found" rfl rfl

/-- C3: the backend compare operation fails exactly on an empty item
list — in particular, for any non-empty item list it succeeds whatever
the per-store scraper outcomes are, so a scraper failure never aborts
the call — and the client compareItems throws exactly when the HTTP
response is not ok, otherwise returning the parsed result. -/
theorem C3_compare_fails_only_on_empty_input (cfg : Config)
    (scrape : String → String → Option (List Product))
    (stores : List Backend.StoreInfo) (items : List String) (resp : Client.HttpResponse) :
    ((∃ e, Backend.compare cfg scrape stores items = Except.error e) ↔ items = []) ∧
    (items ≠ [] → ∃ c, Backend.compare cfg scrape stores items = Except.ok c) ∧
    ((∃ m, Client.compareItems resp = Except.error m) ↔ resp.ok = false) ∧
    (resp.ok = true → Client.compareItems resp = Except.ok resp.payload) ∧
    (resp.ok = false →
      Client.compareItems resp = Except.error (Client.errorMessage "Failed to compare items" resp.errorDetail)) := by
  refine ⟨?_, ?_, ?_, ?_, ?_⟩
  · by_cases h : items = [] <;> simp [Backend.compare, h]
  · intro h
    simp [Backend.compare, h]
  · obtain ⟨ok, detail, payload⟩ := resp
    cases ok <;> simp [Client.compareItems]
  · intro h
    simp [Client.compareItems, h]
  · intro h
    simp [Client.compareItems, h]

/-- Witness for C3 at a non-empty item list with a failing scraper and
at an ok response. -/
theorem C3_witness :
    (∃ c, Backend.compare defaultConfig (fun _ _ => none) [⟨"a", "Store A"⟩] ["חלב"] = Except.ok c) ∧
    Client.compareItems ⟨true, Except.ok none, compEx⟩ = Except.ok compEx :=
  ⟨(C3_compare_fails_only_on_empty_input defaultConfig (fun _ _ => none) [⟨"a", "Store A"⟩]
      ["חלב"] ⟨true, Except.ok none, compEx⟩).2.1 (by simp),
   (C3_compare_fails_only_on_empty_input defaultConfig (fun _ _ => none) [⟨"a", "Store A"⟩]
      ["חלב"] ⟨true, Except.ok none, compEx⟩).2.2.2.1 rfl⟩

/-- The submitted items list is non-empty exactly when some line of the
text is non-empty after trimming. -/
lemma submittedItems_ne_nil_iff (text : List Char) :
    Client.submittedItems text ≠ [] ↔
      ∃ l ∈ Client.splitOnNewline text, Client.trimLine l ≠ [] := by
  unfold Client.submittedItems
  rw [Ne, List.filter_eq_nil_iff]
  push_neg
  constructor
  · rintro ⟨x, hx, hlen⟩
    rw [List.mem_map] at hx
    obtain ⟨l, hl, rfl⟩ := hx
    refine ⟨l, hl, ?_⟩
    simpa [← List.length_pos] using hlen
  · rintro ⟨l, hl, hne⟩
    refine ⟨Client.trimLine l, List.mem_map_of_mem Client.trimLine hl, ?_⟩
    simpa [List.length_pos] using hne

/-- C6: submitting the shopping-list form initiates a comparison exactly
when some line is non-empty after trimming, and the compare call
receives precisely the trimmed non-empty lines in their original order;
with all lines blank no call is made. -/
theorem C6_handleSubmit_trims_and_filters (text : List Char) :
    ((Client.handleSubmit text).isSome ↔
      ∃ l ∈ Client.splitOnNewline text, Client.trimLine l ≠ []) ∧
    (∀ items, Client.handleSubmit text = some items →
      items = ((Client.splitOnNewline text).map Client.trimLine).filter
        (fun l => decide (0 < l.length))) ∧
    ((∀ l ∈ Client.splitOnNewline text, Client.trimLine l = []) →
      Client.handleSubmit text = none) := by
  have hiff := submittedItems_ne_nil_iff text
  refine ⟨?_, ?_, ?_⟩
  · unfold Client.handleSubmit
    split
    · next h =>
      rw [List.length_pos] at h
      simpa using hiff.mp h
    · next h =>
      rw [Nat.not_lt, Nat.le_zero, List.length_eq_zero] at h
      simp only [Option.isSome_none, Bool.false_eq_true, false_iff]
      rw [← hiff]
      simp [h]
  · intro items hitems
    unfold Client.handleSubmit at hitems
    split at hitems
    · exact (Option.some_inj.mp hitems).symm
    · exact absurd hitems (by simp)
  · intro hall
    unfold Client.handleSubmit
    split
    · next h =>
      rw [List.length_pos] at h
      obtain ⟨l, hl, hne⟩ := hiff.mp h
      exact absurd (hall l hl) hne
    · rfl

/-- Witness for C6 at a list whose second line is blank. -/
theorem C6_witness :
    (Client.handleSubmit ("חלב\n  \n לחם ".data)).isSome = true ∧
    Client.handleSubmit ("   \n\t".data) = none :=
  ⟨(C6_handleSubmit_trims_and_filters ("חלב\n  \n לחם ".data)).1.mpr
      ⟨"חלב".data, by decide, by decide⟩,
   (C6_handleSubmit_trims_and_filters ("   \n\t".data)).2.2 (by decide)⟩

/-- The similarity score is non-negative. -/
lemma simScore_nonneg (q c : String) : 0 ≤ Backend.simScore q c := by
  unfold Backend.simScore
  dsimp only
  split
  · exact le_refl 0
  · positivity

/-- The similarity score is at most one. -/
lemma simScore_le_one (q c : String) : Backend.simScore q c ≤ 1 := by
  unfold Backend.simScore
  dsimp only
  split
  · norm_num
  · next h =>
    rw [div_le_one (by positivity)]
    exact_mod_cast le_trans (List.length_filter_le _ _) (le_max_left _ _)

/-- Membership through the insertion step of the descending sort. -/
lemma mem_insertDesc {x y : Product × ℚ} {l : List (Product × ℚ)} :
    y ∈ Backend.insertDesc x l ↔ y = x ∨ y ∈ l := by
  induction l with
  | nil => simp [Backend.insertDesc]
  | cons z zs ih =>
    unfold Backend.insertDesc
    split
    · simp
    · simp only [List.mem_cons, ih]
      tauto

/-- The descending sort has the same members as its input. -/
lemma mem_sortDesc {y : Product × ℚ} {l : List (Product × ℚ)} :
    y ∈ Backend.sortDesc l ↔ y ∈ l := by
  induction l with
  | nil => simp [Backend.sortDesc]
  | cons z zs ih =>
    show y ∈ Backend.insertDesc z (Backend.sortDesc zs) ↔ _
    rw [mem_insertDesc, ih, List.mem_cons]

/-- The Matcher's score is zero (no candidates) or the similarity score
of one of the candidates. -/
lemma matchItem_score_cases (cfg : Config) (q : String) (cands : List Product) :
    (Backend.matchItem cfg q cands).match_score = 0 ∨
      ∃ p ∈ cands,
        (Backend.matchItem cfg q cands).match_score = Backend.simScore q (Backend.candText p) := by
  unfold Backend.matchItem
  cases h : Backend.sortDesc (cands.map (fun p => (p, Backend.simScore q (Backend.candText p)))) with
  | nil =>
    left
    rfl
  | cons best rest =>
    have hb : best ∈ Backend.sortDesc (cands.map (fun p => (p, Backend.simScore q (Backend.candText p)))) := by
      rw [h]
      exact List.mem_cons_self _ _
    rw [mem_sortDesc, List.mem_map] at hb
    obtain ⟨p, hp, hpe⟩ := hb
    right
    refine ⟨p, hp, ?_⟩
    have h2 : best.2 = Backend.simScore q (Backend.candText p) := by
      rw [← hpe]
    dsimp only
    split <;> exact h2

/-- The Matcher's assigned confidence is the bucket of its score. -/
lemma matchItem_confidence_derived (cfg : Config) (q : String) (cands : List Product)
    (c : ConfidenceLevel) (h : (Backend.matchItem cfg q cands).confidence = some c) :
    c = Backend.bucket cfg (Backend.matchItem cfg q cands).match_score := by
  unfold Backend.matchItem at *
  cases hs : Backend.sortDesc (cands.map (fun p => (p, Backend.simScore q (Backend.candText p)))) with
  | nil =>
    rw [hs] at h
    exact absurd h (by simp)
  | cons best rest =>
    rw [hs] at h
    dsimp only at h ⊢
    by_cases hf : best.2 < cfg.MATCH_MEDIUM_THRESHOLD
    · rw [if_pos hf] at h
      exact absurd h (by simp)
    · rw [if_neg hf] at h ⊢
      exact (Option.some_inj.mp h).symm

/-- C4: every match's score lies in [0,1], the confidence bucket is
derived exactly from the score with inclusive boundaries (in particular
a score equal to MATCH_HIGH_THRESHOLD buckets as high), and the
confidence the Matcher assigns is the bucket of the match's score. -/
theorem C4_score_unit_interval_and_bucket_boundaries (cfg : Config) (query : String)
    (cands : List Product) (sc : ℚ) :
    (0 ≤ (Backend.matchItem cfg query cands).match_score ∧
      (Backend.matchItem cfg query cands).match_score ≤ 1) ∧
    (Backend.bucket cfg sc = ConfidenceLevel.high ↔ cfg.MATCH_HIGH_THRESHOLD ≤ sc) ∧
    (Backend.bucket cfg sc = ConfidenceLevel.medium ↔
      sc < cfg.MATCH_HIGH_THRESHOLD ∧ cfg.MATCH_MEDIUM_THRESHOLD ≤ sc) ∧
    (Backend.bucket cfg sc = ConfidenceLevel.low ↔
      sc < cfg.MATCH_HIGH_THRESHOLD ∧ sc < cfg.MATCH_MEDIUM_THRESHOLD) ∧
    (∀ c, (Backend.matchItem cfg query cands).confidence = some c →
      c = Backend.bucket cfg (Backend.matchItem cfg query cands).match_score) := by
  have hb : ∀ s : ℚ,
      (Backend.bucket cfg s = ConfidenceLevel.high ↔ cfg.MATCH_HIGH_THRESHOLD ≤ s) ∧
      (Backend.bucket cfg s = ConfidenceLevel.medium ↔
        s < cfg.MATCH_HIGH_THRESHOLD ∧ cfg.MATCH_MEDIUM_THRESHOLD ≤ s) ∧
      (Backend.bucket cfg s = ConfidenceLevel.low ↔
        s < cfg.MATCH_HIGH_THRESHOLD ∧ s < cfg.MATCH_MEDIUM_THRESHOLD) := by
    intro s
    by_cases h1 : cfg.MATCH_HIGH_THRESHOLD ≤ s
    · simp [Backend.bucket, h1, not_lt.mpr h1]
    · by_cases h2 : cfg.MATCH_MEDIUM_THRESHOLD ≤ s <;>
        simp [Backend.bucket, h1, h2, not_le.mp h1, not_le.mp, not_le]
  have hscore : 0 ≤ (Backend.matchItem cfg query cands).match_score ∧
      (Backend.matchItem cfg query cands).match_score ≤ 1 := by
    rcases matchItem_score_cases cfg query cands with h | ⟨p, _, h⟩
    · rw [h]
      norm_num
    · rw [h]
      exact ⟨simScore_nonneg _ _, simScore_le_one _ _⟩
  exact ⟨hscore, (hb sc).1, (hb sc).2.1, (hb sc).2.2,
    fun c hc => matchItem_confidence_derived cfg query cands c hc⟩

/-- Witness for C4 at the default thresholds: the boundary score 0.85
buckets as high, and a concrete match's score is non-negative. -/
theorem C4_witness :
    Backend.bucket defaultConfig (85/100) = ConfidenceLevel.high ∧
    0 ≤ (Backend.matchItem defaultConfig "חלב" [prodA1]).match_score :=
  ⟨(C4_score_unit_interval_and_bucket_boundaries defaultConfig "חלב" [prodA1] (85/100)).2.1.mpr
      le_rfl,
   (C4_score_unit_interval_and_bucket_boundaries defaultConfig "חלב" [prodA1] (85/100)).1.1⟩

/-- Membership in the recommendation pass's output. -/
lemma mem_markRecommended {cfg : Config} {n : Nat} {stores : List StoreSummary} {s : StoreSummary} :
    s ∈ Backend.markRecommended cfg n stores ↔
      ∃ s0 ∈ stores,
        s = { s0 with is_recommended := decide (some s0.store_id = Backend.recommendedId cfg n stores) } := by
  simp only [Backend.markRecommended, List.mem_map]
  constructor
  · rintro ⟨s0, hs0, rfl⟩
    exact ⟨s0, hs0, rfl⟩
  · rintro ⟨s0, hs0, rfl⟩
    exact ⟨s0, hs0, rfl⟩

/-- Filtering a list by a predicate and by its negation partitions it. -/
lemma length_filter_add_length_filter_not {α : Type} (p : α → Bool) (l : List α) :
    (l.filter p).length + (l.filter (fun a => !(p a))).length = l.length := by
  induction l with
  | nil => simp
  | cons a l ih =>
    by_cases h : p a <;> simp [List.filter_cons, h, ← ih] <;> omega

/-- Matched and missing counts partition the item list. -/
lemma matched_add_missing (items : List ItemMatch) (sid : String) :
    Backend.matchedCount items sid + Backend.missingCount items sid = items.length :=
  length_filter_add_length_filter_not (fun it => (Backend.productFor it sid).isSome) items

/-- The summary the Comparator recomputes satisfies the count
partition. -/
lemma mkSummary_counts (items : List ItemMatch) (sid sname : String) (ao : Option String) :
    (Backend.mkSummary items sid sname ao).matched_count +
      (Backend.mkSummary items sid sname ao).missing_count = items.length :=
  matched_add_missing items sid

/-- Shape of a successful override: the items list keeps its length and
the stores list is the recommendation pass over the per-store summaries,
the targeted one recomputed. -/
lemma overrideHandler_ok_shape (cfg : Config) (c : ComparisonResponse) (iq sid pid : String)
    (c2 : ComparisonResponse) (h : Backend.overrideHandler cfg c iq sid pid = Except.ok c2) :
    ∃ items2 : List ItemMatch,
      items2.length = c.items.length ∧
      c2.items = items2 ∧
      c2.stores = Backend.markRecommended cfg items2.length
        (c.stores.map (fun s =>
          if s.store_id = sid then Backend.mkSummary items2 s.store_id s.store_name s.as_of
          else s)) := by
  unfold Backend.overrideHandler at h
  split at h
  · exact absurd h (by simp)
  · split at h
    · exact absurd h (by simp)
    · split at h
      · exact absurd h (by simp)
      · split at h
        · exact absurd h (by simp)
        · simp only [Except.ok.injEq] at h
          subst h
          exact ⟨_, by simp, rfl, rfl⟩

/-- C5: every store summary a compare call produces has
matched_count + missing_count equal to the number of items, and a
successful override preserves this invariant. -/
theorem C5_counts_partition (cfg : Config) (scrape : String → String → Option (List Product))
    (stores : List Backend.StoreInfo) (queries : List String)
    (c c2 : ComparisonResponse) (iq sid pid : String)
    (hinv : ∀ s ∈ c.stores, s.matched_count + s.missing_count = c.items.length) :
    (∀ r, Backend.compare cfg scrape stores queries = Except.ok r →
      ∀ s ∈ r.stores, s.matched_count + s.missing_count = r.items.length) ∧
    (Backend.overrideHandler cfg c iq sid pid = Except.ok c2 →
      ∀ s ∈ c2.stores, s.matched_count + s.missing_count = c2.items.length) := by
  constructor
  · intro r hr s hs
    unfold Backend.compare at hr
    split at hr
    · exact absurd hr (by simp)
    · simp only [Except.ok.injEq] at hr
      subst hr
      obtain ⟨s0, hs0, rfl⟩ := mem_markRecommended.mp hs
      rw [List.mem_map] at hs0
      obtain ⟨st, _, rfl⟩ := hs0
      dsimp only
      exact mkSummary_counts _ st.store_id st.store_name none
  · intro h s hs
    obtain ⟨items2, hlen, hitems, hstores⟩ := overrideHandler_ok_shape cfg c iq sid pid c2 h
    rw [hstores] at hs
    obtain ⟨s0, hs0, rfl⟩ := mem_markRecommended.mp hs
    rw [List.mem_map] at hs0
    obtain ⟨s1, hs1, rfl⟩ := hs0
    rw [hitems]
    dsimp only
    by_cases heq : s1.store_id = sid
    · simp only [if_pos heq]
      exact mkSummary_counts items2 s1.store_id s1.store_name s1.as_of
    · simp only [if_neg heq]
      exact (hinv s1 hs1).trans hlen.symm

/-- Witness for C5 at the scenario comparison, whose counts satisfy the
invariant hypothesis. -/
theorem C5_witness :
    (∀ s ∈ compEx.stores, s.matched_count + s.missing_count = compEx.items.length) ∧
    ((∀ r, Backend.compare defaultConfig (fun _ _ => none) [⟨"a", "Store A"⟩] ["חלב"] = Except.ok r →
        ∀ s ∈ r.stores, s.matched_count + s.missing_count = r.items.length) ∧
      (Backend.overrideHandler defaultConfig compEx "חלב" "b" "b2" = Except.ok compEx →
        ∀ s ∈ compEx.stores, s.matched_count + s.missing_count = compEx.items.length)) := by
  have hinv : ∀ s ∈ compEx.stores, s.matched_count + s.missing_count = compEx.items.length := by
    decide
  exact ⟨hinv, C5_counts_partition defaultConfig (fun _ _ => none) [⟨"a", "Store A"⟩] ["חלב"]
    compEx compEx "חלב" "b" "b2" hinv⟩

/-- A successful override implies the §4.5 preconditions on the
comparison it was applied to. -/
lemma overrideHandler_ok_pre (cfg : Config) (c : ComparisonResponse) (iq sid pid : String)
    (c2 : ComparisonResponse) (h : Backend.overrideHandler cfg c iq sid pid = Except.ok c2) :
    ∃ item, c.items.find? (fun it => it.query = iq) = some item ∧
      c.stores.any (fun s => s.store_id = sid) = true ∧
      ∃ m, Backend.matchFor item sid = some m ∧
        (m.product.map (fun p => p.id) = some pid ∨ ∃ p ∈ m.alternatives, p.id = pid) := by
  unfold Backend.overrideHandler at h
  split at h
  · exact absurd h (by simp)
  · next item hfind =>
    split at h
    · exact absurd h (by simp)
    · next hany =>
      split at h
      · exact absurd h (by simp)
      · next m hm =>
        split at h
        · exact absurd h (by simp)
        · next p hp =>
          refine ⟨item, hfind, ?_, m, hm, ?_⟩
          · simpa using hany
          · by_cases hcur : m.product.map (fun q => q.id) = some pid
            · exact Or.inl hcur
            · rw [if_neg hcur] at hp
              have hpt := List.find?_some hp
              simp only [decide_eq_true_eq] at hpt
              exact Or.inr ⟨p, List.mem_of_find?_eq_some hp, hpt⟩

/-- C2: an override whose §4.5 precondition is unmet fails with a
validation error and leaves the session store unchanged; and in the
client, a failed override leaves the held comparison (and loading flag)
unchanged and only records the error message. -/
theorem C2_override_rejected_state_unchanged (cfg : Config)
    (sess : List (String × ComparisonResponse)) (cid iq sid pid : String)
    (h : ¬ Backend.overridePre sess cid iq sid pid) :
    ((Backend.runOverride cfg sess cid iq sid pid).1 = sess ∧
      ∃ e, (Backend.runOverride cfg sess cid iq sid pid).2 = Except.error e) ∧
    (∀ (st : Client.HookState) (c0 : ComparisonResponse)
        (server : String → String → String → String → Except String ComparisonResponse)
        (msg : String),
      st.comparison = some c0 →
      server c0.comparison_id iq sid pid = Except.error msg →
      Client.override st server iq sid pid = ({ st with error := some msg }, true)) := by
  constructor
  · cases hc : Backend.findComparison sess cid with
    | none =>
      unfold Backend.runOverride
      rw [hc]
      exact ⟨rfl, "Comparison not found", rfl⟩
    | some c =>
      cases hh : Backend.overrideHandler cfg c iq sid pid with
      | error e =>
        unfold Backend.runOverride
        rw [hc]
        dsimp only
        rw [hh]
        exact ⟨rfl, e, rfl⟩
      | ok c2 =>
        obtain ⟨item, hfind, hany, m, hm, hpid⟩ := overrideHandler_ok_pre cfg c iq sid pid c2 hh
        exact absurd ⟨c, hc, item, hfind, hany, m, hm, hpid⟩ h
  · intro st c0 server msg hst hsrv
    unfold Client.override
    rw [hst]
    dsimp only
    rw [hsrv]

/-- Witness for C2 at the empty session, where no precondition can
hold. -/
theorem C2_witness :
    (¬ Backend.overridePre [] "cmp1" "חלב" "b" "b2") ∧
    ((Backend.runOverride defaultConfig [] "cmp1" "חלב" "b" "b2").1 = [] ∧
      ∃ e, (Backend.runOverride defaultConfig [] "cmp1" "חלב" "b" "b2").2 = Except.error e) := by
  have h : ¬ Backend.overridePre [] "cmp1" "חלב" "b" "b2" := by
    simp [Backend.overridePre, Backend.findComparison]
  exact ⟨h, (C2_override_rejected_state_unchanged defaultConfig [] "cmp1" "חלב" "b" "b2" h).1⟩

/-- A strict preference means a strictly smaller recommendation key. -/
lemma preferred_true_lt {a b : StoreSummary} (h : Backend.preferred a b = true) :
    Backend.storeKey b < Backend.storeKey a := by
  unfold Backend.preferred at h
  unfold Backend.storeKey
  rw [Prod.Lex.lt_iff]
  dsimp only
  by_cases h1 : b.total_price < a.total_price
  · exact Or.inl h1
  · rw [if_neg h1] at h
    by_cases h2 : a.total_price < b.total_price
    · rw [if_pos h2] at h
      exact absurd h (by simp)
    · rw [if_neg h2] at h
      have heq : b.total_price = a.total_price := le_antisymm (not_lt.mp h2) (not_lt.mp h1)
      by_cases h3 : a.matched_count < b.matched_count
      · refine Or.inr ⟨heq, ?_⟩
        rw [Prod.Lex.lt_iff]
        dsimp only
        refine Or.inl ?_
        have hc : (a.matched_count : ℤ) < (b.matched_count : ℤ) := by exact_mod_cast h3
        omega
      · rw [if_neg h3] at h
        by_cases h4 : b.matched_count < a.matched_count
        · rw [if_pos h4] at h
          exact absurd h (by simp)
        · rw [if_neg h4] at h
          have hm : a.matched_count = b.matched_count :=
            le_antisymm (not_lt.mp h4) (not_lt.mp h3)
          refine Or.inr ⟨heq, ?_⟩
          rw [Prod.Lex.lt_iff]
          dsimp only
          exact Or.inr ⟨by rw [hm], of_decide_eq_true h⟩

/-- A failed preference means the incumbent's key is no larger. -/
lemma preferred_false_le {a b : StoreSummary} (h : Backend.preferred a b = false) :
    Backend.storeKey a ≤ Backend.storeKey b := by
  unfold Backend.preferred at h
  unfold Backend.storeKey
  rw [Prod.Lex.le_iff]
  dsimp only
  by_cases h1 : b.total_price < a.total_price
  · rw [if_pos h1] at h
    exact absurd h (by simp)
  · rw [if_neg h1] at h
    by_cases h2 : a.total_price < b.total_price
    · exact Or.inl h2
    · rw [if_neg h2] at h
      have heq : a.total_price = b.total_price := le_antisymm (not_lt.mp h1) (not_lt.mp h2)
      by_cases h3 : a.matched_count < b.matched_count
      · rw [if_pos h3] at h
        exact absurd h (by simp)
      · rw [if_neg h3] at h
        by_cases h4 : b.matched_count < a.matched_count
        · refine Or.inr ⟨heq, ?_⟩
          rw [Prod.Lex.le_iff]
          dsimp only
          refine Or.inl ?_
          have hc : (b.matched_count : ℤ) < (a.matched_count : ℤ) := by exact_mod_cast h4
          omega
        · rw [if_neg h4] at h
          have hm : a.matched_count = b.matched_count :=
            le_antisymm (not_lt.mp h4) (not_lt.mp h3)
          refine Or.inr ⟨heq, ?_⟩
          rw [Prod.Lex.le_iff]
          dsimp only
          exact Or.inr ⟨by rw [hm], not_lt.mp (of_decide_eq_false h)⟩

/-- The selection fold starting from an incumbent returns the key-least
element among the incumbent and the list. -/
lemma pickBest_fold_spec (l : List StoreSummary) :
    ∀ (acc b : StoreSummary), l.foldl Backend.pickStep (some acc) = some b →
      (b = acc ∨ b ∈ l) ∧ Backend.storeKey b ≤ Backend.storeKey acc ∧
        ∀ t ∈ l, Backend.storeKey b ≤ Backend.storeKey t := by
  induction l with
  | nil =>
    intro acc b h
    simp only [List.foldl_nil, Option.some_inj] at h
    subst h
    exact ⟨Or.inl rfl, le_refl _, by simp⟩
  | cons s rest ih =>
    intro acc b h
    rw [List.foldl_cons] at h
    rcases Bool.eq_false_or_eq_true (Backend.preferred acc s) with hpf | hpf
    all_goals first
    | (have hps : Backend.pickStep (some acc) s = some acc := by
        simp [Backend.pickStep, hpf]
       rw [hps] at h
       obtain ⟨hmem, hacc, hall⟩ := ih acc b h
       have hle := preferred_false_le hpf
       refine ⟨?_, hacc, ?_⟩
       · rcases hmem with rfl | hm
         · exact Or.inl rfl
         · exact Or.inr (List.mem_cons_of_mem _ hm)
       · intro t ht
         rcases List.mem_cons.mp ht with rfl | hm
         · exact le_trans hacc hle
         · exact hall t hm)
    | (have hps : Backend.pickStep (some acc) s = some s := by
        simp [Backend.pickStep, hpf]
       rw [hps] at h
       obtain ⟨hmem, hacc, hall⟩ := ih s b h
       have hlt := preferred_true_lt hpf
       refine ⟨?_, le_trans hacc (le_of_lt hlt), ?_⟩
       · rcases hmem with rfl | hm
         · exact Or.inr (List.mem_cons_self _ _)
         · exact Or.inr (List.mem_cons_of_mem _ hm)
       · intro t ht
         rcases List.mem_cons.mp ht with rfl | hm
         · exact hacc
         · exact hall t hm)

/-- The selected store is a member of the list and key-least in it. -/
lemma pickBest_spec {l : List StoreSummary} {b : StoreSummary}
    (h : Backend.pickBest l = some b) :
    b ∈ l ∧ ∀ t ∈ l, Backend.storeKey b ≤ Backend.storeKey t := by
  cases l with
  | nil => exact absurd h (by simp [Backend.pickBest])
  | cons s rest =>
    have h2 : rest.foldl Backend.pickStep (some s) = some b := by
      rw [Backend.pickBest, List.foldl_cons] at h
      exact h
    obtain ⟨hmem, hacc, hall⟩ := pickBest_fold_spec rest s b h2
    refine ⟨?_, ?_⟩
    · rcases hmem with rfl | hm
      · exact List.mem_cons_self _ _
      · exact List.mem_cons_of_mem _ hm
    · intro t ht
      rcases List.mem_cons.mp ht with rfl | hm
      · exact hacc
      · exact hall t hm

/-- C1: a store the comparison marks recommended meets the coverage
floor, and against every store meeting the floor it has strictly lower
total price, or equal price and strictly more matches, or equal price
and matches and a store id that is no larger. -/
theorem C1_recommended_store_is_best_eligible (cfg : Config) (n : Nat)
    (stores : List StoreSummary)
    (hnodup : (stores.map (fun s => s.store_id)).Nodup)
    (s : StoreSummary) (hs : s ∈ Backend.markRecommended cfg n stores)
    (hrec : s.is_recommended = true) :
    cfg.MIN_COVERAGE_FOR_RECOMMENDATION ≤ Backend.coverage n s ∧
    ∀ t ∈ Backend.markRecommended cfg n stores,
      cfg.MIN_COVERAGE_FOR_RECOMMENDATION ≤ Backend.coverage n t →
      (s.total_price < t.total_price ∨
        (s.total_price = t.total_price ∧
          (t.matched_count < s.matched_count ∨
            (t.matched_count = s.matched_count ∧ s.store_id ≤ t.store_id)))) := by
  obtain ⟨s0, hs0, rfl⟩ := mem_markRecommended.mp hs
  have hid : some s0.store_id = Backend.recommendedId cfg n stores := by
    have : decide (some s0.store_id = Backend.recommendedId cfg n stores) = true := hrec
    exact of_decide_eq_true this
  obtain ⟨b, hpick, hbid⟩ :
      ∃ b, Backend.pickBest (stores.filter (Backend.eligible cfg n)) = some b ∧
        b.store_id = s0.store_id := by
    unfold Backend.recommendedId at hid
    cases hp : Backend.pickBest (stores.filter (Backend.eligible cfg n)) with
    | none =>
      rw [hp] at hid
      exact absurd hid (by simp)
    | some b =>
      rw [hp] at hid
      simp only [Option.map_some', Option.some_inj] at hid
      exact ⟨b, rfl, hid.symm⟩
  obtain ⟨hbmem, hbmin⟩ := pickBest_spec hpick
  have hbst : b ∈ stores := (List.mem_filter.mp hbmem).1
  have hbel : Backend.eligible cfg n b = true := (List.mem_filter.mp hbmem).2
  have hbs0 : b = s0 := List.inj_on_of_nodup_map hnodup hbst hs0 hbid
  subst hbs0
  constructor
  · exact of_decide_eq_true hbel
  · intro t ht hcovt
    obtain ⟨t0, ht0, rfl⟩ := mem_markRecommended.mp ht
    have htel : Backend.eligible cfg n t0 = true := decide_eq_true hcovt
    have htf : t0 ∈ stores.filter (Backend.eligible cfg n) :=
      List.mem_filter.mpr ⟨ht0, htel⟩
    have hkey := hbmin t0 htf
    unfold Backend.storeKey at hkey
    rw [Prod.Lex.le_iff] at hkey
    rcases hkey with hlt | ⟨heq, hinner⟩
    · exact Or.inl hlt
    · refine Or.inr ⟨heq, ?_⟩
      rw [Prod.Lex.le_iff] at hinner
      rcases hinner with hlt2 | ⟨heq2, hle2⟩
      · refine Or.inl ?_
        have : (t0.matched_count : ℤ) < (b.matched_count : ℤ) := by
          have := neg_lt_neg_iff.mp hlt2
          omega
        exact_mod_cast this
      · refine Or.inr ⟨?_, hle2⟩
        have : (t0.matched_count : ℤ) = (b.matched_count : ℤ) := by
          have := neg_inj.mp heq2
          omega
        exact_mod_cast this

/-- Witness for C1: with full coverage, store A is marked recommended
and the theorem's guarantees hold for it. -/
theorem C1_witness :
    ({ sumA with is_recommended := true } : StoreSummary) ∈
      Backend.markRecommended defaultConfig 2 [sumA] ∧
    (defaultConfig.MIN_COVERAGE_FOR_RECOMMENDATION ≤
        Backend.coverage 2 ({ sumA with is_recommended := true } : StoreSummary) ∧
      ∀ t ∈ Backend.markRecommended defaultConfig 2 [sumA],
        defaultConfig.MIN_COVERAGE_FOR_RECOMMENDATION ≤ Backend.coverage 2 t →
        (({ sumA with is_recommended := true } : StoreSummary).total_price < t.total_price ∨
          (({ sumA with is_recommended := true } : StoreSummary).total_price = t.total_price ∧
            (t.matched_count < ({ sumA with is_recommended := true } : StoreSummary).matched_count ∨
              (t.matched_count = ({ sumA with is_recommended := true } : StoreSummary).matched_count ∧
                ({ sumA with is_recommended := true } : StoreSummary).store_id ≤ t.store_id))))) := by
  have hel : Backend.eligible defaultConfig 2 sumA = true := by
    simp only [Backend.eligible, Backend.coverage, sumA, defaultConfig, decide_eq_true_eq]
    norm_num
  have hfil : [sumA].filter (Backend.eligible defaultConfig 2) = [sumA] := by
    simp [List.filter_cons, hel]
  have hrid : Backend.recommendedId defaultConfig 2 [sumA] = some "a" := by
    unfold Backend.recommendedId
    rw [hfil]
    rfl
  have hs : ({ sumA with is_recommended := true } : StoreSummary) ∈
      Backend.markRecommended defaultConfig 2 [sumA] := by
    unfold Backend.markRecommended
    simp only [List.map_cons, List.map_nil, hrid]
    simp [sumA]
  have hrec : ({ sumA with is_recommended := true } : StoreSummary).is_recommended = true := rfl
  exact ⟨hs, C1_recommended_store_is_best_eligible defaultConfig 2 [sumA] (by decide)
    ({ sumA with is_recommended := true }) hs hrec⟩

/-- C8: when no store meets the coverage floor the recommendation pass
marks no store recommended, and ComparisonResults renders the
no-recommendation notice exactly when no store in the result is marked
recommended. -/
theorem C8_no_recommendation_surfaced (cfg : Config) (n : Nat) (stores : List StoreSummary)
    (h : ∀ s ∈ stores, Backend.eligible cfg n s = false) :
    (∀ s ∈ Backend.markRecommended cfg n stores, s.is_recommended = false) ∧
    (∀ c : ComparisonResponse,
      Client.showsNoRecommendationNotice c = true ↔ ∀ s ∈ c.stores, s.is_recommended = false) := by
  constructor
  · have hfil : stores.filter (Backend.eligible cfg n) = [] :=
      List.filter_eq_nil_iff.mpr (fun s hs => by simp [h s hs])
    have hrid : Backend.recommendedId cfg n stores = none := by
      simp [Backend.recommendedId, hfil, Backend.pickBest]
    intro s hs
    obtain ⟨s0, _, rfl⟩ := mem_markRecommended.mp hs
    simp [hrid]
  · intro c
    simp [Client.showsNoRecommendationNotice, Client.hasRecommendation, List.any_eq_false]

/-- Witness for C8 at a single store covering one of two items. -/
theorem C8_witness :
    (∀ s ∈ [sumB], Backend.eligible defaultConfig 2 s = false) ∧
    (∀ s ∈ Backend.markRecommended defaultConfig 2 [sumB], s.is_recommended = false) := by
  have h : ∀ s ∈ [sumB], Backend.eligible defaultConfig 2 s = false := by
    intro s hs
    rw [List.mem_singleton] at hs
    subst hs
    simp only [Backend.eligible, Backend.coverage, sumB, defaultConfig, decide_eq_false_iff_not]
    norm_num
  exact ⟨h, (C8_no_recommendation_surfaced defaultConfig 2 [sumB] h).1⟩

end Pelles
